import Mathlib

/-!
Shallow embedding of the volt-logger middleware layer.

Sources embedded:
* src/middleware/sampling.ts — samplingMiddleware (fixed-window rate limiter)
* OCPP enrichment middleware — ocppMiddleware
* core/types.ts — LogLevel, LogEntry, OcppExchangeMeta

JS numbers used as timestamps and window lengths are modelled as `Int`
(so that subtraction like `now - bucket.windowStart` behaves as in JS);
counters are `Nat`.  The level `SILENT: Infinity` is modelled in
`WithTop Int`.  A middleware stage `(entry, next) => ...` is modelled as a
function returning the list of entries passed to `next`, in call order
(so dropping the entry = the empty list).  The JS `Map<string, BucketEntry>`
is modelled as an insertion-ordered association list; `Map.set` keeps the
position of an existing key and appends a new one, which `setBucket` mirrors.
-/

namespace VoltLog

/-- Structure LogError from core/types.ts. -/
structure LogError where
  message : String
  stack : Option String := none
  code : Option String := none
  name : Option String := none
deriving DecidableEq

/-- Structure OcppExchangeMeta from core/types.ts. -/
structure OcppExchangeMeta where
  chargePointId : Option String := none
  messageType : Option String := none
  action : Option String := none
  direction : Option String := none
  correlationId : Option String := none
  protocol : Option String := none
  payloadSize : Option Nat := none
  latencyMs : Option Int := none
  status : Option String := none
deriving DecidableEq

/-- Structure LogEntry from core/types.ts, with `meta` fixed to
`OcppExchangeMeta` (the only meta shape the embedded middleware inspects). -/
structure LogEntry where
  id : String
  level : Int
  levelName : String
  message : String
  timestamp : Int
  meta : OcppExchangeMeta := {}
  context : Option (List (String × String)) := none
  correlationId : Option String := none
  error : Option LogError := none
deriving DecidableEq

/-- Rate-limiter bucket `{count, windowStart}` from sampling.ts. -/
structure BucketEntry where
  count : Nat
  windowStart : Int
deriving DecidableEq

/-- Operation `buckets.get(key)` on the insertion-ordered association list. -/
def lookupBucket : List (String × BucketEntry) → String → Option BucketEntry
  | [], _ => none
  | (k', v) :: rest, k => if k = k' then some v else lookupBucket rest k

/-- Operation `buckets.set(key, v)`: replace in place if the key exists (JS
`Map.set` keeps its position), otherwise append at the end. -/
def setBucket : List (String × BucketEntry) → String → BucketEntry → List (String × BucketEntry)
  | [], k, v => [(k, v)]
  | (k', v') :: rest, k, v => if k = k' then (k, v) :: rest else (k', v') :: setBucket rest k v

/-- The bucket selected by sampling.ts lines 59-63: the stored bucket for the
key, replaced by `{count: 0, windowStart: now}` when absent or when
`now - bucket.windowStart >= windowMs`. -/
def resetOrKeep (windowMs now : Int) : Option BucketEntry → BucketEntry
  | none => { count := 0, windowStart := now }
  | some b => if now - b.windowStart ≥ windowMs then { count := 0, windowStart := now } else b

/-- One invocation of the closure returned by `samplingMiddleware`
(sampling.ts lines 53-78).  Returns the updated bucket table and the list of
entries passed to `next`.  In the source, `bucket.count++` mutates the object
held by the map (or just freshly `set`), so the net table update is
`setBucket` at the key with the incremented bucket.  The final `if` is the
periodic cleanup (lines 70-77): when more than 10 000 buckets remain, every
bucket with `now - b.windowStart >= windowMs * 2` is deleted. -/
def samplingStep (keyFn : LogEntry → String) (maxPerWindow : Nat) (windowMs : Int)
    (buckets : List (String × BucketEntry)) (entry : LogEntry) :
    List (String × BucketEntry) × List LogEntry :=
  let key := keyFn entry
  let now := entry.timestamp
  let b0 := resetOrKeep windowMs now (lookupBucket buckets key)
  let b : BucketEntry := { count := b0.count + 1, windowStart := b0.windowStart }
  let buckets1 := setBucket buckets key b
  let nextCalls := if b.count ≤ maxPerWindow then [entry] else []
  let buckets2 :=
    if buckets1.length > 10000 then
      buckets1.filter (fun p => !(decide (now - p.2.windowStart ≥ windowMs * 2)))
    else buckets1
  (buckets2, nextCalls)

/-- The bucket table of `samplingStep` just before the periodic cleanup
(sampling.ts state after line 65): the table with the incremented bucket
stored at the key. -/
def preSweepBuckets (keyFn : LogEntry → String) (windowMs : Int)
    (buckets : List (String × BucketEntry)) (entry : LogEntry) :
    List (String × BucketEntry) :=
  let b0 := resetOrKeep windowMs entry.timestamp (lookupBucket buckets (keyFn entry))
  setBucket buckets (keyFn entry) { count := b0.count + 1, windowStart := b0.windowStart }

/-- Run `samplingStep` over a list of entries from a given bucket table.
Returns the final table, the concatenated `next` calls (the admitted entries,
in submission order) and the per-entry admit/drop decisions. -/
def samplingRunAux (keyFn : LogEntry → String) (maxPerWindow : Nat) (windowMs : Int) :
    List (String × BucketEntry) → List LogEntry →
    List (String × BucketEntry) × List LogEntry × List Bool
  | s, [] => (s, [], [])
  | s, e :: es =>
    let r := samplingStep keyFn maxPerWindow windowMs s e
    let rest := samplingRunAux keyFn maxPerWindow windowMs r.1 es
    (rest.1, r.2 ++ rest.2.1, (!r.2.isEmpty) :: rest.2.2)

/-- Run a fresh `samplingMiddleware` instance (empty bucket table) over a list
of entries. -/
def samplingRun (keyFn : LogEntry → String) (maxPerWindow : Nat) (windowMs : Int)
    (entries : List LogEntry) :
    List (String × BucketEntry) × List LogEntry × List Bool :=
  samplingRunAux keyFn maxPerWindow windowMs [] entries

/-- Structure SamplingOptions from sampling.ts: all fields optional. -/
structure SamplingOptions where
  keyFn : Option (LogEntry → String) := none
  maxPerWindow : Option Nat := none
  windowMs : Option Int := none

/-- Default resolution, sampling.ts line 48:
`options.keyFn ?? ((entry) => entry.message)`. -/
def resolvedKeyFn (o : SamplingOptions) : LogEntry → String :=
  o.keyFn.getD (fun e => e.message)

/-- Default resolution, sampling.ts line 49: `options.maxPerWindow ?? 100`. -/
def resolvedMaxPerWindow (o : SamplingOptions) : Nat :=
  o.maxPerWindow.getD 100

/-- Default resolution, sampling.ts line 50: `options.windowMs ?? 60_000`. -/
def resolvedWindowMs (o : SamplingOptions) : Int :=
  o.windowMs.getD 60000

/-- One invocation of `samplingMiddleware(options)` after default
resolution. -/
def samplingMiddlewareStep (o : SamplingOptions)
    (buckets : List (String × BucketEntry)) (entry : LogEntry) :
    List (String × BucketEntry) × List LogEntry :=
  samplingStep (resolvedKeyFn o) (resolvedMaxPerWindow o) (resolvedWindowMs o) buckets entry

/-- JS truthiness of an optional string: `undefined` and the empty string are
falsy, every other string is truthy. -/
def jsTruthy : Option String → Bool
  | none => false
  | some s => !(s == "")

/-- One invocation of the closure returned by `ocppMiddleware`.  In the
source, `enriched` is a shallow copy of the entry with a copied `meta`; in
this functional model the copy is the record built from the input fields.
The function `stringifyLen` abstracts `JSON.stringify(enriched.meta).length`,
with `none` standing for a thrown exception caught by the `try`/`catch`.
Returns the list of entries passed to `next`. -/
def ocppStep (autoPayloadSize propagateCorrelationId : Bool)
    (stringifyLen : OcppExchangeMeta → Option Nat) (entry : LogEntry) : List LogEntry :=
  let enriched := entry
  let enriched :=
    if autoPayloadSize && enriched.meta.payloadSize.isNone && jsTruthy enriched.meta.action then
      match stringifyLen enriched.meta with
      | some n => { enriched with meta := { enriched.meta with payloadSize := some n } }
      | none => enriched
    else enriched
  let enriched :=
    if propagateCorrelationId && jsTruthy enriched.meta.correlationId
        && !(jsTruthy enriched.correlationId) then
      { enriched with correlationId := enriched.meta.correlationId }
    else enriched
  [enriched]

/-- Level names from core/types.ts (`keyof typeof LogLevel`). -/
inductive LogLevelName where
  | TRACE | DEBUG | INFO | WARN | ERROR | FATAL | SILENT
deriving DecidableEq

/-- The `LogLevel` constant object from core/types.ts; `SILENT: Infinity` is
the top element of `WithTop Int`. -/
def LogLevel : LogLevelName → WithTop Int
  | .TRACE => (10 : Int)
  | .DEBUG => (20 : Int)
  | .INFO => (30 : Int)
  | .WARN => (40 : Int)
  | .ERROR => (50 : Int)
  | .FATAL => (60 : Int)
  | .SILENT => ⊤

/-- Written from the words of spec §4.2: "look up bucket by key. If absent,
or if `now - windowStart >= windowMs`, reset bucket to
`{count: 0, windowStart: now}`. Increment count. Admit iff
`count <= maxPerWindow`".  Returns the post-increment bucket and the admit
decision, to be compared with `samplingStep`. -/
def samplingStepSpec (keyFn : LogEntry → String) (maxPerWindow : Nat) (windowMs : Int)
    (buckets : List (String × BucketEntry)) (entry : LogEntry) : BucketEntry × Bool :=
  let key := keyFn entry
  let now := entry.timestamp
  let b0 :=
    match lookupBucket buckets key with
    | none => ({ count := 0, windowStart := now } : BucketEntry)
    | some b => if now - b.windowStart ≥ windowMs then { count := 0, windowStart := now } else b
  let b : BucketEntry := { count := b0.count + 1, windowStart := b0.windowStart }
  (b, decide (b.count ≤ maxPerWindow))

/-- The entry `ocppStep` forwards, described field by field: `payloadSize` is
filled in exactly when it was undefined, `action` is truthy and
`stringifyLen` succeeds; the top-level `correlationId` is taken from `meta`
exactly when the meta one is truthy and the entry-level one is falsy
(undefined or empty); every other field is the input field. -/
def ocppEnrichedSpec (stringifyLen : OcppExchangeMeta → Option Nat) (e : LogEntry) : LogEntry :=
  { e with
    meta :=
      { e.meta with
        payloadSize :=
          if e.meta.payloadSize.isNone && jsTruthy e.meta.action then
            match stringifyLen e.meta with
            | some n => some n
            | none => e.meta.payloadSize
          else e.meta.payloadSize }
    correlationId :=
      if jsTruthy e.meta.correlationId && !(jsTruthy e.correlationId) then
        e.meta.correlationId
      else e.correlationId }

/-- A minimal log entry used for concrete runs. -/
def mkEntry (msg : String) (ts : Int) : LogEntry :=
  { id := "a", level := 30, levelName := "INFO", message := msg, timestamp := ts }

/-- A bucket table with 10 000 stale buckets (window started at time 0),
keyed distinctly. -/
def staleBuckets (n : Nat) : List (String × BucketEntry) :=
  (List.range n).map (fun i => ("s" ++ Nat.repr i, { count := 1, windowStart := 0 }))

/-- A 10 002-entry bucket table: one fresh bucket for key "e" (window started
at 150), one bucket for key "b" whose window (with `windowMs = 100`) ended at
100, and 10 000 stale buckets. -/
def sweepDemoBuckets : List (String × BucketEntry) :=
  ("e", { count := 1, windowStart := 150 }) ::
    ("b", { count := 1, windowStart := 0 }) :: staleBuckets 10000

/-- The entry whose processing triggers the sweep in the demo table: key "e",
observation time 200. -/
def sweepDemoEntry : LogEntry :=
  { id := "a", level := 30, levelName := "INFO", message := "e", timestamp := 200 }

/-- The twelve-entry scenario of spec §8: ten entries at t=0, one at t=500,
one at t=1001, all with the same key. -/
def c4Entries : List LogEntry :=
  List.replicate 10 (mkEntry "m" 0) ++ [mkEntry "m" 500, mkEntry "m" 1001]

/-- An entry whose entry-level correlationId is set but empty while its meta
carries a non-empty correlationId. -/
def c10Entry : LogEntry :=
  { id := "a", level := 30, levelName := "INFO", message := "m", timestamp := 0,
    meta := { action := some "BootNotification", correlationId := some "X" },
    correlationId := some "" }

lemma samplingStep_single (keyFn : LogEntry → String) (maxPerWindow : Nat) (w : Int)
    (k : String) (c : Nat) (t1 : Int) (e : LogEntry)
    (hkey : keyFn e = k) (hlt : e.timestamp - t1 < w) :
    samplingStep keyFn maxPerWindow w [(k, ⟨c, t1⟩)] e =
      ([(k, ⟨c + 1, t1⟩)], if c + 1 ≤ maxPerWindow then [e] else []) := by
  have h : ¬ (e.timestamp - t1 ≥ w) := not_le.mpr hlt
  simp [samplingStep, lookupBucket, setBucket, resetOrKeep, hkey, h]

lemma samplingStep_empty (keyFn : LogEntry → String) (maxPerWindow : Nat) (w : Int)
    (e : LogEntry) :
    samplingStep keyFn maxPerWindow w [] e =
      ([(keyFn e, ⟨1, e.timestamp⟩)], if 1 ≤ maxPerWindow then [e] else []) := by
  simp [samplingStep, lookupBucket, setBucket, resetOrKeep]

lemma samplingRunAux_single (keyFn : LogEntry → String) (maxPerWindow : Nat) (w : Int)
    (k : String) (t1 : Int) :
    ∀ (es : List LogEntry) (c : Nat),
      (∀ x ∈ es, keyFn x = k ∧ x.timestamp - t1 < w) →
      (samplingRunAux keyFn maxPerWindow w [(k, ⟨c, t1⟩)] es).1 = [(k, ⟨c + es.length, t1⟩)] ∧
      (samplingRunAux keyFn maxPerWindow w [(k, ⟨c, t1⟩)] es).2.1 =
        es.take (maxPerWindow - c) := by
  intro es
  induction es with
  | nil => intro c _; simp [samplingRunAux]
  | cons e es ih =>
    intro c h
    have hkey : keyFn e = k := (h e (by simp)).1
    have hlt : e.timestamp - t1 < w := (h e (by simp)).2
    have htail : ∀ x ∈ es, keyFn x = k ∧ x.timestamp - t1 < w :=
      fun x hx => h x (List.mem_cons_of_mem _ hx)
    have hstep := samplingStep_single keyFn maxPerWindow w k c t1 e hkey hlt
    have hih := ih (c + 1) htail
    simp only [samplingRunAux, hstep]
    constructor
    · rw [hih.1]
      have : c + 1 + es.length = c + (es.length + 1) := by omega
      simp [this]
    · rw [hih.2]
      by_cases hc : c + 1 ≤ maxPerWindow
      · have : maxPerWindow - c = (maxPerWindow - (c + 1)) + 1 := by omega
        simp [hc, this]
      · have h1 : maxPerWindow - c = 0 := by omega
        have h2 : maxPerWindow - (c + 1) = 0 := by omega
        simp [hc, h1, h2]

lemma samplingStep_fst_sweep (keyFn : LogEntry → String) (maxPerWindow : Nat) (w : Int)
    (s : List (String × BucketEntry)) (e : LogEntry)
    (hsz : (preSweepBuckets keyFn w s e).length > 10000) :
    (samplingStep keyFn maxPerWindow w s e).1 =
      (preSweepBuckets keyFn w s e).filter
        (fun p => !(decide (e.timestamp - p.2.windowStart ≥ w * 2))) := by
  simp only [samplingStep, preSweepBuckets] at hsz ⊢
  simp [hsz]

lemma samplingStep_fst_no_sweep (keyFn : LogEntry → String) (maxPerWindow : Nat) (w : Int)
    (s : List (String × BucketEntry)) (e : LogEntry)
    (hsz : ¬ ((preSweepBuckets keyFn w s e).length > 10000)) :
    (samplingStep keyFn maxPerWindow w s e).1 = preSweepBuckets keyFn w s e := by
  simp only [samplingStep, preSweepBuckets] at hsz ⊢
  simp [hsz]

lemma samplingStep_fst (keyFn : LogEntry → String) (maxPerWindow : Nat) (w : Int)
    (s : List (String × BucketEntry)) (e : LogEntry) :
    (samplingStep keyFn maxPerWindow w s e).1 =
      if (preSweepBuckets keyFn w s e).length > 10000 then
        (preSweepBuckets keyFn w s e).filter
          (fun p => !(decide (e.timestamp - p.2.windowStart ≥ w * 2)))
      else preSweepBuckets keyFn w s e := rfl

lemma samplingStep_snd (keyFn : LogEntry → String) (maxPerWindow : Nat) (w : Int)
    (s : List (String × BucketEntry)) (e : LogEntry) :
    (samplingStep keyFn maxPerWindow w s e).2 =
      if (resetOrKeep w e.timestamp (lookupBucket s (keyFn e))).count + 1 ≤ maxPerWindow
      then [e] else [] := by
  simp only [samplingStep]

lemma lookupBucket_setBucket_self (s : List (String × BucketEntry)) (k : String)
    (v : BucketEntry) :
    lookupBucket (setBucket s k v) k = some v := by
  induction s with
  | nil => simp [setBucket, lookupBucket]
  | cons p rest ih =>
    by_cases h : k = p.1
    · simp [setBucket, lookupBucket, h]
    · simp [setBucket, lookupBucket, h, ih]

lemma lookupBucket_filter (p : String × BucketEntry → Bool) (k : String) (v : BucketEntry) :
    ∀ (s : List (String × BucketEntry)),
      lookupBucket s k = some v → p (k, v) = true →
      lookupBucket (s.filter p) k = some v := by
  intro s
  induction s with
  | nil => intro hl _; simp [lookupBucket] at hl
  | cons q rest ih =>
    obtain ⟨qk, qv⟩ := q
    intro hl hp
    by_cases h : k = qk
    · subst h
      rw [lookupBucket] at hl
      simp at hl
      subst hl
      simp [List.filter, hp, lookupBucket]
    · rw [lookupBucket] at hl
      simp [h] at hl
      rcases hq : p (qk, qv) with _ | _
      · simp [List.filter, hq, ih hl hp]
      · simp [List.filter, hq, lookupBucket, h, ih hl hp]

lemma samplingStepSpec_fst (keyFn : LogEntry → String) (maxPerWindow : Nat) (w : Int)
    (s : List (String × BucketEntry)) (e : LogEntry) :
    (samplingStepSpec keyFn maxPerWindow w s e).1 =
      { count := (resetOrKeep w e.timestamp (lookupBucket s (keyFn e))).count + 1,
        windowStart := (resetOrKeep w e.timestamp (lookupBucket s (keyFn e))).windowStart } := by
  rcases h : lookupBucket s (keyFn e) with _ | b <;>
    simp [samplingStepSpec, resetOrKeep, h]

lemma samplingStepSpec_snd (keyFn : LogEntry → String) (maxPerWindow : Nat) (w : Int)
    (s : List (String × BucketEntry)) (e : LogEntry) :
    (samplingStepSpec keyFn maxPerWindow w s e).2 =
      decide ((resetOrKeep w e.timestamp (lookupBucket s (keyFn e))).count + 1
        ≤ maxPerWindow) := by
  rcases h : lookupBucket s (keyFn e) with _ | b <;>
    simp [samplingStepSpec, resetOrKeep, h]

lemma resetOrKeep_recent (w now : Int) (o : Option BucketEntry) (hw : 0 < w) :
    now - (resetOrKeep w now o).windowStart < w * 2 := by
  rcases o with _ | b
  · show now - now < w * 2
    omega
  · simp only [resetOrKeep]
    split
    · show now - now < w * 2
      omega
    · rename_i hnr
      omega

lemma preSweep_demo :
    preSweepBuckets (fun x => x.message) 100 sweepDemoBuckets sweepDemoEntry =
      ("e", { count := 2, windowStart := 150 }) ::
        ("b", { count := 1, windowStart := 0 }) :: staleBuckets 10000 := by
  rfl

lemma preSweep_demo_len :
    (preSweepBuckets (fun x => x.message) 100 sweepDemoBuckets sweepDemoEntry).length =
      10002 := by
  rw [preSweep_demo]
  simp [staleBuckets]

lemma sweep_demo_result :
    (samplingStep (fun x => x.message) 10 100 sweepDemoBuckets sweepDemoEntry).1 =
      [("e", { count := 2, windowStart := 150 })] := by
  rw [samplingStep_fst_sweep _ _ _ _ _ (by rw [preSweep_demo_len]; omega)]
  rw [preSweep_demo]
  rw [List.filter_cons, List.filter_cons]
  have h1 : (List.filter
      (fun p => !(decide (sweepDemoEntry.timestamp - p.2.windowStart ≥ 100 * 2)))
      (staleBuckets 10000)) = [] := by
    rw [List.filter_eq_nil_iff]
    intro a ha
    simp [staleBuckets, sweepDemoEntry] at ha ⊢
    obtain ⟨i, _, rfl⟩ := ha
    norm_num
  simp [sweepDemoEntry, h1]
  intro a b hab
  simp [staleBuckets] at hab
  obtain ⟨i, _, h2⟩ := hab
  rw [← h2.2]

lemma preSweepBuckets_congr (keyFn : LogEntry → String) (w : Int)
    (s : List (String × BucketEntry)) (e1 e2 : LogEntry)
    (h1 : keyFn e1 = keyFn e2) (h2 : e1.timestamp = e2.timestamp) :
    preSweepBuckets keyFn w s e1 = preSweepBuckets keyFn w s e2 := by
  simp only [preSweepBuckets, h1, h2]

lemma samplingStep_congr (keyFn : LogEntry → String) (maxPerWindow : Nat) (w : Int)
    (s : List (String × BucketEntry)) (e1 e2 : LogEntry)
    (h1 : keyFn e1 = keyFn e2) (h2 : e1.timestamp = e2.timestamp) :
    (samplingStep keyFn maxPerWindow w s e1).1 = (samplingStep keyFn maxPerWindow w s e2).1 ∧
    (samplingStep keyFn maxPerWindow w s e1).2.isEmpty =
      (samplingStep keyFn maxPerWindow w s e2).2.isEmpty := by
  constructor
  · rw [samplingStep_fst, samplingStep_fst, preSweepBuckets_congr keyFn w s e1 e2 h1 h2, h2]
  · rw [samplingStep_snd, samplingStep_snd, h1, h2]
    split <;> rfl

lemma samplingRunAux_congr (keyFn : LogEntry → String) (maxPerWindow : Nat) (w : Int) :
    ∀ {es1 es2 : List LogEntry},
      List.Forall₂ (fun x y => keyFn x = keyFn y ∧ x.timestamp = y.timestamp) es1 es2 →
      ∀ s, (samplingRunAux keyFn maxPerWindow w s es1).1 =
          (samplingRunAux keyFn maxPerWindow w s es2).1 ∧
        (samplingRunAux keyFn maxPerWindow w s es1).2.2 =
          (samplingRunAux keyFn maxPerWindow w s es2).2.2 := by
  intro es1 es2 h
  induction h with
  | nil => intro s; exact ⟨rfl, rfl⟩
  | @cons x y es1' es2' hxy htail ih =>
    intro s
    obtain ⟨hst, hdec⟩ := samplingStep_congr keyFn maxPerWindow w s x y hxy.1 hxy.2
    obtain ⟨ih1, ih2⟩ := ih ((samplingStep keyFn maxPerWindow w s y).1)
    simp only [samplingRunAux]
    rw [hst]
    exact ⟨ih1, by rw [hdec, ih2]⟩

/-- Claim C1: for a fresh samplingMiddleware instance, a sequence of entries
that all map to key `k` and whose timestamps all lie within `windowMs` of the
first timestamp is forwarded to `next` exactly on its first
`min(n, maxPerWindow)` entries, in submission order (so the
`(maxPerWindow+1)`-th such entry is the first one dropped). -/
theorem sampling_rate_limit (keyFn : LogEntry → String) (maxPerWindow : Nat) (w : Int)
    (k : String) (e : LogEntry) (es : List LogEntry)
    (hkey : ∀ x ∈ e :: es, keyFn x = k)
    (hwin : ∀ x ∈ e :: es, e.timestamp ≤ x.timestamp ∧ x.timestamp - e.timestamp < w) :
    (samplingRun keyFn maxPerWindow w (e :: es)).2.1 = (e :: es).take maxPerWindow ∧
    (samplingRun keyFn maxPerWindow w (e :: es)).2.1.length =
      min (e :: es).length maxPerWindow := by
  have hk1 : keyFn e = k := hkey e (by simp)
  have htail : ∀ x ∈ es, keyFn x = k ∧ x.timestamp - e.timestamp < w :=
    fun x hx => ⟨hkey x (List.mem_cons_of_mem _ hx),
      (hwin x (List.mem_cons_of_mem _ hx)).2⟩
  have hstep := samplingStep_empty keyFn maxPerWindow w e
  have haux := samplingRunAux_single keyFn maxPerWindow w k e.timestamp es 1 htail
  have hmain :
      (samplingRun keyFn maxPerWindow w (e :: es)).2.1 = (e :: es).take maxPerWindow := by
    simp only [samplingRun, samplingRunAux, hstep, hk1]
    rw [haux.2]
    by_cases hm : 1 ≤ maxPerWindow
    · obtain ⟨m, rfl⟩ : ∃ m, maxPerWindow = m + 1 := ⟨maxPerWindow - 1, by omega⟩
      simp [hm]
    · have h0 : maxPerWindow = 0 := by omega
      simp [hm, h0]
  refine ⟨hmain, ?_⟩
  rw [hmain, List.length_take, Nat.min_comm]

/-- Witness for C1: three same-key entries at t=0,1,2 with maxPerWindow=2 and
windowMs=10: the first two are forwarded, the third is dropped. -/
theorem sampling_rate_limit_witness :
    (∀ x ∈ [mkEntry "m" 0, mkEntry "m" 1, mkEntry "m" 2],
      (fun e : LogEntry => e.message) x = "m") ∧
    (∀ x ∈ [mkEntry "m" 0, mkEntry "m" 1, mkEntry "m" 2],
      (mkEntry "m" 0).timestamp ≤ x.timestamp ∧
        x.timestamp - (mkEntry "m" 0).timestamp < 10) ∧
    (samplingRun (fun e => e.message) 2 10
        [mkEntry "m" 0, mkEntry "m" 1, mkEntry "m" 2]).2.1 =
      [mkEntry "m" 0, mkEntry "m" 1] ∧
    (samplingRun (fun e => e.message) 2 10
        [mkEntry "m" 0, mkEntry "m" 1, mkEntry "m" 2]).2.1.length = 2 := by
  refine ⟨by decide, by decide, ?_⟩
  have h := sampling_rate_limit (fun e : LogEntry => e.message) 2 10 "m"
    (mkEntry "m" 0) [mkEntry "m" 1, mkEntry "m" 2] (by decide) (by decide)
  exact h

/-- Claim C2: each samplingMiddleware invocation stores at the key of the
entry exactly the bucket described by the spec algorithm (reset to
`{count: 0, windowStart: now}` when absent or expired, then incremented), and
calls `next` exactly when the post-increment count is at most `maxPerWindow`
(the entry is dropped, with no call to `next`, otherwise). -/
theorem sampling_step_algorithm (keyFn : LogEntry → String) (maxPerWindow : Nat) (w : Int)
    (s : List (String × BucketEntry)) (e : LogEntry) (hw : 0 < w) :
    lookupBucket (samplingStep keyFn maxPerWindow w s e).1 (keyFn e) =
      some (samplingStepSpec keyFn maxPerWindow w s e).1 ∧
    (samplingStep keyFn maxPerWindow w s e).2 =
      (if (samplingStepSpec keyFn maxPerWindow w s e).2 = true then [e] else []) := by
  constructor
  · rw [samplingStepSpec_fst]
    by_cases hsz : (preSweepBuckets keyFn w s e).length > 10000
    · rw [samplingStep_fst_sweep keyFn maxPerWindow w s e hsz]
      apply lookupBucket_filter
      · simp only [preSweepBuckets]
        exact lookupBucket_setBucket_self s (keyFn e) _
      · have := resetOrKeep_recent w e.timestamp (lookupBucket s (keyFn e)) hw
        simp
        omega
    · rw [samplingStep_fst_no_sweep keyFn maxPerWindow w s e hsz]
      simp only [preSweepBuckets]
      exact lookupBucket_setBucket_self s (keyFn e) _
  · rw [samplingStep_snd, samplingStepSpec_snd]
    by_cases hc : (resetOrKeep w e.timestamp (lookupBucket s (keyFn e))).count + 1
        ≤ maxPerWindow
    · simp [hc]
    · simp [hc]

/-- Witness for C2: a first entry on an empty table with windowMs=1000 stores
bucket `{count := 1, windowStart := 0}` and is forwarded. -/
theorem sampling_step_algorithm_witness :
    ((0 : Int) < 1000) ∧
    lookupBucket (samplingStep (fun e => e.message) 100 1000 [] (mkEntry "m" 0)).1 "m" =
      some { count := 1, windowStart := 0 } ∧
    (samplingStep (fun e => e.message) 100 1000 [] (mkEntry "m" 0)).2 = [mkEntry "m" 0] := by
  refine ⟨by norm_num, ?_⟩
  exact sampling_step_algorithm (fun e => e.message) 100 1000 [] (mkEntry "m" 0) (by norm_num)

/-- Claim C3, counterexample to the claim as stated: in a 10 002-bucket table
swept at `now = 200` with `windowMs = 100`, the bucket at key "b" has
`windowStart = 0`, so its window ended at `0 + 100 = 100`, which is more
recent than `now - 2*windowMs = 0`; the claim says such a bucket is not
removed, yet the sweep deletes it. -/
theorem sampling_sweep_not_two_windows_past_end :
    sweepDemoBuckets.length > 10000 ∧
    ("b", ({ count := 1, windowStart := 0 } : BucketEntry)) ∈ sweepDemoBuckets ∧
    sweepDemoEntry.timestamp - 2 * 100 < (0 : Int) + 100 ∧
    lookupBucket
      (samplingStep (fun x => x.message) 10 100 sweepDemoBuckets sweepDemoEntry).1 "b" =
      none := by
  refine ⟨?_, ?_, ?_, ?_⟩
  · have h : sweepDemoBuckets.length = 10002 := by simp [sweepDemoBuckets, staleBuckets]
    omega
  · simp [sweepDemoBuckets]
  · norm_num [sweepDemoEntry]
  · rw [sweep_demo_result]
    rfl

/-- Claim C3 as amended: when the table held by samplingMiddleware exceeds
10 000 buckets after the update, the sweep keeps exactly the buckets with
`now - windowStart < 2*windowMs`; i.e. it removes the buckets whose window
ended at least `windowMs` (not `2*windowMs`) before the sweeping timestamp. -/
theorem sampling_sweep_two_window_cutoff (keyFn : LogEntry → String) (maxPerWindow : Nat)
    (w : Int) (s : List (String × BucketEntry)) (e : LogEntry) (k : String) (b : BucketEntry)
    (hsz : (preSweepBuckets keyFn w s e).length > 10000) :
    (k, b) ∈ (samplingStep keyFn maxPerWindow w s e).1 ↔
      (k, b) ∈ preSweepBuckets keyFn w s e ∧ e.timestamp - b.windowStart < 2 * w := by
  rw [samplingStep_fst_sweep keyFn maxPerWindow w s e hsz, List.mem_filter]
  refine and_congr_right fun _ => ?_
  simp
  omega

/-- Witness for the amended C3: in the demo sweep, the fresh bucket at key "e"
survives because `200 - 150 < 2*100`. -/
theorem sampling_sweep_two_window_cutoff_witness :
    (preSweepBuckets (fun x => x.message) 100 sweepDemoBuckets sweepDemoEntry).length >
      10000 ∧
    (("e", ({ count := 2, windowStart := 150 } : BucketEntry)) ∈
        (samplingStep (fun x => x.message) 10 100 sweepDemoBuckets sweepDemoEntry).1 ↔
      ("e", ({ count := 2, windowStart := 150 } : BucketEntry)) ∈
          preSweepBuckets (fun x => x.message) 100 sweepDemoBuckets sweepDemoEntry ∧
        sweepDemoEntry.timestamp - (150 : Int) < 2 * 100) := by
  refine ⟨by rw [preSweep_demo_len]; omega, ?_⟩
  exact sampling_sweep_two_window_cutoff (fun x => x.message) 10 100 sweepDemoBuckets
    sweepDemoEntry "e" { count := 2, windowStart := 150 } (by rw [preSweep_demo_len]; omega)

/-- Claim C4: with `maxPerWindow = 10` and `windowMs = 1000`, of twelve
same-key entries at t=0 (ten), t=500 and t=1001, the ten at t=0 are forwarded,
the one at t=500 is dropped, and the one at t=1001 is forwarded into a new
window. -/
theorem sampling_window_example :
    (samplingRun (fun e => e.message) 10 1000 c4Entries).2.1 =
      List.replicate 10 (mkEntry "m" 0) ++ [mkEntry "m" 1001] ∧
    (samplingRun (fun e => e.message) 10 1000 c4Entries).2.2 =
      List.replicate 10 true ++ [false, true] := by
  decide

/-- Claim C5: both built-in middleware stages call their `next` continuation
at most once per invocation: the sampling stage passes at most one entry to
`next`, and the OCPP enrichment stage exactly one. -/
theorem middleware_calls_next_at_most_once :
    (∀ (keyFn : LogEntry → String) (maxPerWindow : Nat) (w : Int)
      (s : List (String × BucketEntry)) (e : LogEntry),
      (samplingStep keyFn maxPerWindow w s e).2.length ≤ 1) ∧
    (∀ (a p : Bool) (sl : OcppExchangeMeta → Option Nat) (e : LogEntry),
      (ocppStep a p sl e).length ≤ 1) := by
  constructor
  · intro keyFn maxPerWindow w s e
    rw [samplingStep_snd]
    split <;> simp
  · intro a p sl e
    exact le_refl 1

/-- Claim C6: samplingMiddleware reads time only from the entry timestamp:
two runs of the same configuration over entry sequences that agree pointwise
on key and timestamp produce identical final bucket tables and identical
admit/drop decisions. -/
theorem sampling_deterministic (keyFn : LogEntry → String) (maxPerWindow : Nat) (w : Int)
    (es1 es2 : List LogEntry)
    (h : List.Forall₂ (fun x y => keyFn x = keyFn y ∧ x.timestamp = y.timestamp) es1 es2) :
    (samplingRun keyFn maxPerWindow w es1).1 = (samplingRun keyFn maxPerWindow w es2).1 ∧
    (samplingRun keyFn maxPerWindow w es1).2.2 = (samplingRun keyFn maxPerWindow w es2).2.2 :=
  samplingRunAux_congr keyFn maxPerWindow w h []

/-- Witness for C6: two single-entry runs whose entries differ in id and level
but share message (the key) and timestamp produce the same table and the same
decisions. -/
theorem sampling_deterministic_witness :
    List.Forall₂
      (fun x y : LogEntry =>
        (fun e : LogEntry => e.message) x = (fun e : LogEntry => e.message) y ∧
          x.timestamp = y.timestamp)
      [mkEntry "m" 5] [{ mkEntry "m" 5 with id := "b", level := 50 }] ∧
    ((samplingRun (fun e => e.message) 100 60000 [mkEntry "m" 5]).1 =
        (samplingRun (fun e => e.message) 100 60000
          [{ mkEntry "m" 5 with id := "b", level := 50 }]).1 ∧
      (samplingRun (fun e => e.message) 100 60000 [mkEntry "m" 5]).2.2 =
        (samplingRun (fun e => e.message) 100 60000
          [{ mkEntry "m" 5 with id := "b", level := 50 }]).2.2) := by
  have hf : List.Forall₂
      (fun x y : LogEntry =>
        (fun e : LogEntry => e.message) x = (fun e : LogEntry => e.message) y ∧
          x.timestamp = y.timestamp)
      [mkEntry "m" 5] [{ mkEntry "m" 5 with id := "b", level := 50 }] :=
    List.Forall₂.cons ⟨rfl, rfl⟩ List.Forall₂.nil
  exact ⟨hf, sampling_deterministic (fun e => e.message) 100 60000 _ _ hf⟩

/-- Claim C7: when the bucket table exceeds its size threshold, the sweep
purges exactly the buckets whose window ended at least one full window before
the sweeping entry timestamp: a bucket survives iff it was in the
pre-sweep table and not `windowStart + windowMs ≤ now - windowMs`. -/
theorem sampling_sweep_exact (keyFn : LogEntry → String) (maxPerWindow : Nat) (w : Int)
    (s : List (String × BucketEntry)) (e : LogEntry) (k : String) (b : BucketEntry)
    (hsz : (preSweepBuckets keyFn w s e).length > 10000) :
    (k, b) ∈ (samplingStep keyFn maxPerWindow w s e).1 ↔
      (k, b) ∈ preSweepBuckets keyFn w s e ∧
        ¬(b.windowStart + w ≤ e.timestamp - w) := by
  rw [samplingStep_fst_sweep keyFn maxPerWindow w s e hsz, List.mem_filter]
  refine and_congr_right fun _ => ?_
  simp
  omega

/-- Witness for C7: in the demo sweep the bucket at key "b" (window ended at
100 = 200 - 100) is purged, matching the iff at that instance. -/
theorem sampling_sweep_exact_witness :
    (preSweepBuckets (fun x => x.message) 100 sweepDemoBuckets sweepDemoEntry).length >
      10000 ∧
    (("b", ({ count := 1, windowStart := 0 } : BucketEntry)) ∈
        (samplingStep (fun x => x.message) 10 100 sweepDemoBuckets sweepDemoEntry).1 ↔
      ("b", ({ count := 1, windowStart := 0 } : BucketEntry)) ∈
          preSweepBuckets (fun x => x.message) 100 sweepDemoBuckets sweepDemoEntry ∧
        ¬((0 : Int) + 100 ≤ sweepDemoEntry.timestamp - 100)) := by
  refine ⟨by rw [preSweep_demo_len]; omega, ?_⟩
  exact sampling_sweep_exact (fun x => x.message) 10 100 sweepDemoBuckets sweepDemoEntry
    "b" { count := 1, windowStart := 0 } (by rw [preSweep_demo_len]; omega)

/-- Claim C8: the numeric levels satisfy TRACE=10 < DEBUG=20 < INFO=30 <
WARN=40 < ERROR=50 < FATAL=60, every finite (integer) level is strictly below
the SILENT sentinel, and no finite record level reaches a SILENT threshold
under the `≥` comparison. -/
theorem log_levels_ordered :
    LogLevel .TRACE = ((10 : Int) : WithTop Int) ∧
    LogLevel .DEBUG = ((20 : Int) : WithTop Int) ∧
    LogLevel .INFO = ((30 : Int) : WithTop Int) ∧
    LogLevel .WARN = ((40 : Int) : WithTop Int) ∧
    LogLevel .ERROR = ((50 : Int) : WithTop Int) ∧
    LogLevel .FATAL = ((60 : Int) : WithTop Int) ∧
    LogLevel .TRACE < LogLevel .DEBUG ∧
    LogLevel .DEBUG < LogLevel .INFO ∧
    LogLevel .INFO < LogLevel .WARN ∧
    LogLevel .WARN < LogLevel .ERROR ∧
    LogLevel .ERROR < LogLevel .FATAL ∧
    (∀ x : Int, (x : WithTop Int) < LogLevel .SILENT) ∧
    (∀ x : Int, ¬ ((x : WithTop Int) ≥ LogLevel .SILENT)) := by
  refine ⟨rfl, rfl, rfl, rfl, rfl, rfl, ?_, ?_, ?_, ?_, ?_, ?_, ?_⟩
  · exact WithTop.coe_lt_coe.mpr (by norm_num)
  · exact WithTop.coe_lt_coe.mpr (by norm_num)
  · exact WithTop.coe_lt_coe.mpr (by norm_num)
  · exact WithTop.coe_lt_coe.mpr (by norm_num)
  · exact WithTop.coe_lt_coe.mpr (by norm_num)
  · exact fun x => WithTop.coe_lt_top x
  · intro x hx
    exact WithTop.coe_ne_top (top_le_iff.mp hx)

/-- Claim C9: samplingMiddleware with no options (or with the corresponding
option omitted) uses the entry message as sampling key, 100 as maxPerWindow
and 60000 ms as windowMs. -/
theorem sampling_defaults_resolved :
    (∀ e : LogEntry, resolvedKeyFn ⟨none, none, none⟩ e = e.message) ∧
    resolvedMaxPerWindow ⟨none, none, none⟩ = 100 ∧
    resolvedWindowMs ⟨none, none, none⟩ = 60000 ∧
    (∀ (mp : Option Nat) (wm : Option Int) (e : LogEntry),
      resolvedKeyFn ⟨none, mp, wm⟩ e = e.message) ∧
    (∀ (kf : Option (LogEntry → String)) (wm : Option Int),
      resolvedMaxPerWindow ⟨kf, none, wm⟩ = 100) ∧
    (∀ (kf : Option (LogEntry → String)) (mp : Option Nat),
      resolvedWindowMs ⟨kf, mp, none⟩ = 60000) :=
  ⟨fun _ => rfl, rfl, rfl, fun _ _ _ => rfl, fun _ _ => rfl, fun _ _ => rfl⟩

/-- Claim C10, counterexample to the claim as stated: an entry whose
entry-level correlationId is set to the empty string (so set, but falsy under
JS truthiness) while its meta carries correlationId "X" is forwarded with its
entry-level correlationId overwritten by "X". -/
theorem ocpp_overwrites_empty_correlation_id :
    c10Entry.correlationId = some "" ∧
    (ocppStep true true (fun _ => some 7) c10Entry).map (fun x => x.correlationId) =
      [some "X"] := by
  decide

/-- Claim C10 as amended: with default options, ocppMiddleware forwards
exactly one entry, built functionally from the input: `payloadSize` is filled
in only when it was undefined, `action` is truthy and the stringify length is
available; the entry-level `correlationId` is taken from `meta` only when the
meta value is truthy and the entry-level value is falsy — i.e. a non-empty
entry-level correlationId is never overwritten, but an empty string (set but
falsy) is treated as absent and is overwritten; all other fields are passed
through unchanged. -/
theorem ocpp_enrichment_exact (sl : OcppExchangeMeta → Option Nat) (e : LogEntry) :
    ocppStep true true sl e = [ocppEnrichedSpec sl e] := by
  unfold ocppStep ocppEnrichedSpec
  by_cases h1 : (e.meta.payloadSize.isNone && jsTruthy e.meta.action) = true
  · rcases hsl : sl e.meta with _ | n
    · simp [h1, hsl]
      split <;> rfl
    · simp [h1, hsl]
      split <;> rfl
  · simp [h1]
    split <;> rfl

end VoltLog
